import Mathlib

/-!
Verification of the blackbox economic-calendar pipeline and scoring engine.

This file gives a shallow embedding, in Lean 4, of the parts of the
repository that the specification's claims are about:

* the value normalizer (src/blackbox/data/normalizer.py),
* the surprise computation (src/blackbox/data/scoring.py),
* the scoring calculator (src/blackbox/core/scoring/calculator.py),
* the calendar-page parser and the per-day retry wrapper
  (src/blackbox/data/scraper/forex_factory.py),
* the event repository (src/blackbox/data/storage/repository.py together
  with the schema of src/blackbox/data/storage/models.py), and
* the calendar sync service (src/blackbox/data/services.py).

Conventions of the embedding:

* Python floats that the code only combines by field arithmetic are
  embedded as rationals; the decay computation, which uses real
  exponentiation, is embedded over the reals.
* Calendar dates are a year/month/day record ordered lexicographically;
  times of day are minutes after midnight, with a missing time embedded
  as none (the SQL NULL and the Python None).
* Fallible Python code is embedded with Except or Option; an uncaught
  Python exception is an Except.error value.
* The SQL statements of the repository are embedded against a store that
  is a list of rows, with PostgreSQL semantics (the production backend:
  the default connection string of storage/database.py is a postgresql
  URL and the upsert is built from sqlalchemy.dialects.postgresql):
  ORDER BY ... ASC places NULL last, and NULLs are distinct for the
  purposes of the uq_event unique constraint.
* Logging, pacing delays and session plumbing are dropped: they do not
  affect the values the claims are about.
-/

namespace Blackbox

/-- Impact level of an economic event (data/models.py, class Impact). -/
inductive Impact where
  | low
  | medium
  | high
  | holiday
  | unknown
deriving DecidableEq

/-- A calendar date, as used by datetime.date in the source. -/
structure Date where
  year : Nat
  month : Nat
  day : Nat
deriving DecidableEq

/-- Strict lexicographic order on dates (the order of datetime.date). -/
def Date.lt (a b : Date) : Prop :=
  a.year < b.year ∨
    (a.year = b.year ∧ (a.month < b.month ∨ (a.month = b.month ∧ a.day < b.day)))

/-- Non-strict lexicographic order on dates. -/
def Date.le (a b : Date) : Prop :=
  Date.lt a b ∨ a = b

instance : DecidableRel Date.lt := fun a b => by
  unfold Date.lt; infer_instance

instance : DecidableRel Date.le := fun a b => by
  unfold Date.le; infer_instance

/-- Number of days of a month, as calendar.monthrange returns it
(Gregorian rules; months outside 1..12 do not occur in the source,
the function is extended by 31 there). -/
def daysInMonth (y m : Nat) : Nat :=
  if m = 2 then
    if (y % 4 = 0 ∧ y % 100 ≠ 0) ∨ y % 400 = 0 then 29 else 28
  else if m = 4 ∨ m = 6 ∨ m = 9 ∨ m = 11 then 30
  else 31

/-- The days of a month in ascending order, mirroring the
range(1, num_days + 1) loops of services.py and forex_factory.py. -/
def monthDates (y m : Nat) : List Date :=
  (List.range (daysInMonth y m)).map (fun i => ⟨y, m, i + 1⟩)

/-- data/scoring.py, calculate_surprise: direction * (actual - forecast)
divided by the absolute value of forecast; none when actual or forecast
is missing or forecast is zero. -/
def calculate_surprise (actual forecast : Option ℚ) (direction : ℤ) : Option ℚ :=
  match actual, forecast with
  | some a, some f =>
      if f = 0 then none
      else some ((direction : ℚ) * (a - f) / |f|)
  | _, _ => none

/-- The failure of core/scoring: calculate_decay raises ValueError on a
non-positive half-life (core/scoring/calculator.py line 36). -/
inductive ScoringErr where
  | invalidConfig
deriving DecidableEq

/-- core/scoring/calculator.py, calculate_decay. Times are in hours (the
code converts the timedelta to hours before using it); the elapsed time
is reference minus event. -/
noncomputable def calculate_decay (event_time reference_time half_life_hours : ℝ) :
    Except ScoringErr ℝ :=
  if half_life_hours ≤ 0 then .error .invalidConfig
  else if reference_time - event_time < 0 then .ok 1
  else .ok ((1 / 2 : ℝ) ^ ((reference_time - event_time) / half_life_hours))

/-- core/scoring/calculator.py, calculate_event_force:
surprise times weight times decay. -/
def calculate_event_force (surprise : ℝ) (weight : ℤ) (decay : ℝ) : ℝ :=
  surprise * weight * decay

/-- core/scoring/calculator.py, calculate_pair_bias:
base score minus quote score. -/
def calculate_pair_bias (base_score quote_score : ℝ) : ℝ :=
  base_score - quote_score

/-- The three directional signals returned (as strings) by
get_bias_signal. -/
inductive Signal where
  | bullish
  | bearish
  | neutral
deriving DecidableEq

/-- core/scoring/calculator.py, get_bias_signal: BULLISH when the bias
exceeds the threshold, BEARISH when it is below the negated threshold,
NEUTRAL otherwise. -/
noncomputable def get_bias_signal (bias threshold : ℝ) : Signal :=
  if threshold < bias then .bullish
  else if bias < -threshold then .bearish
  else .neutral

/-- The direction-swap a claim about swapping base and quote speaks of:
BULLISH and BEARISH exchange, NEUTRAL stays. -/
def Signal.flip : Signal → Signal
  | .bullish => .bearish
  | .bearish => .bullish
  | .neutral => .neutral

/-- Whitespace in the sense of Python's str.strip and of the \s class
of the value pattern (the inputs here are ASCII). -/
def isPySpace (c : Char) : Bool :=
  c = ' ' || c = '\t' || c = '\n' || c = '\r' || c = '\x0B' || c = '\x0C'

/-- Python's str.strip on a character list. -/
def pyStrip (cs : List Char) : List Char :=
  ((cs.dropWhile isPySpace).reverse.dropWhile isPySpace).reverse

/-- A digit or a thousands separator, the character class of the number
group of VALUE_PATTERN in data/normalizer.py. -/
def isDigitOrComma (c : Char) : Bool :=
  c.isDigit || c = ','

/-- The groups captured by a successful match of VALUE_PATTERN: the sign
character when present, the raw number text (digits, commas, at most one
dot), and the lower-cased unit suffix when present. The comparison
marker group is captured by the regex and then discarded by
normalize_value, so it is dropped here directly. -/
structure ValueMatch where
  sign : Option Char
  numberChars : List Char
  unit : Option Char
deriving DecidableEq

/-- Consume the optional comparison marker of VALUE_PATTERN. -/
def dropCmpMarker : List Char → List Char
  | c :: rest => if c = '<' || c = '>' || c = '≤' || c = '≥' then rest else c :: rest
  | [] => []

/-- Consume the optional sign of VALUE_PATTERN. -/
def takeSign : List Char → Option Char × List Char
  | c :: rest => if c = '+' || c = '-' then (some c, rest) else (none, c :: rest)
  | [] => (none, [])

/-- VALUE_PATTERN.match of data/normalizer.py on an anchored string:
optional whitespace, optional comparison marker, optional sign, one or
more digits or commas, an optional dot with trailing digits, optional
whitespace, an optional case-insensitive unit among k m b t or a percent
sign, optional whitespace, end of string. The regex is deterministic
here because the character classes of adjacent groups are disjoint, so
the greedy match below is exactly the regex match. -/
def matchValuePattern (input : List Char) : Option ValueMatch :=
  let s0 := input.dropWhile isPySpace
  let s1 := dropCmpMarker s0
  let p := takeSign s1
  let intPart := p.2.takeWhile isDigitOrComma
  let s3 := p.2.drop intPart.length
  if intPart.isEmpty then none
  else
    let q : List Char × List Char :=
      match s3 with
      | '.' :: rest => (['.'], rest)
      | _ => ([], s3)
    let fracPart := q.2.takeWhile Char.isDigit
    let s5 := q.2.drop fracPart.length
    let s6 := s5.dropWhile isPySpace
    let u : Option Char × List Char :=
      match s6 with
      | c :: rest =>
          if c = 'k' || c = 'K' || c = 'm' || c = 'M' || c = 'b' || c = 'B' ||
             c = 't' || c = 'T' || c = '%'
          then (some c.toLower, rest) else (none, c :: rest)
      | [] => (none, [])
    let s8 := u.2.dropWhile isPySpace
    if s8.isEmpty then some ⟨p.1, intPart ++ q.1 ++ fracPart, u.1⟩ else none

/-- Decimal digits read as a natural number. -/
def digitsToNat (cs : List Char) : Nat :=
  cs.foldl (fun a c => a * 10 + (c.toNat - 48)) 0

/-- Python's float() restricted to the comma-stripped capture of
VALUE_PATTERN (digits with at most one dot): none exactly where float()
raises ValueError, that is, when no digit is present at all. -/
def parseDecimal (cs : List Char) : Option ℚ :=
  let ip := cs.takeWhile Char.isDigit
  let rest := cs.drop ip.length
  match rest with
  | [] => if ip.isEmpty then none else some (digitsToNat ip : ℚ)
  | '.' :: fp =>
      if fp.all Char.isDigit then
        if ip.isEmpty ∧ fp.isEmpty then none
        else some ((digitsToNat ip : ℚ) + (digitsToNat fp : ℚ) / (10 : ℚ) ^ fp.length)
      else none
  | _ => none

/-- data/normalizer.py, normalize_value: none for a missing value, an
empty or whitespace-only string, or a string the pattern rejects;
otherwise the signed number with the thousands separators removed, the
unit multiplier applied, and a percent divided by one hundred. -/
def normalize_value (raw : Option String) : Option ℚ :=
  match raw with
  | none => none
  | some s =>
    let cleaned := pyStrip s.toList
    if cleaned.isEmpty then none
    else
      match matchValuePattern cleaned with
      | none => none
      | some m =>
        match parseDecimal (m.numberChars.filter (fun c => c ≠ ',')) with
        | none => none
        | some v0 =>
          let v1 := if m.sign = some '-' then -v0 else v0
          match m.unit with
          | some '%' => some (v1 / 100)
          | some 'k' => some (v1 * 1000)
          | some 'm' => some (v1 * 1000000)
          | some 'b' => some (v1 * 1000000000)
          | some 't' => some (v1 * 1000000000000)
          | _ => some v1

/-- The pydantic model EconomicEvent of data/models.py. The fields
event_type, direction and weight are referenced throughout the tree
(repository.py writes them, the scoring conftest constructs them, the
calculator reads them and the derived surprise) but the enriched
definition is not among the sources; they are kept here as plain data.
The three raw-string fields are the ingestion-boundary copies that the
scraper fills and the database ignores. -/
structure EconomicEvent where
  date : Date
  time : Option Nat
  currency : String
  impact : Impact
  event_name : String
  actual : Option ℚ
  forecast : Option ℚ
  previous : Option ℚ
  event_type : String
  direction : ℤ
  weight : Nat
  actual_raw : Option String := none
  forecast_raw : Option String := none
  previous_raw : Option String := none
deriving DecidableEq

/-- Modelled from the spec: the derived surprise of an event, defined
iff actual and forecast are present and forecast is nonzero, as
polarity times (actual minus forecast) over the absolute forecast
(spec section 3, matching calculate_surprise of data/scoring.py). The
enriched model that carries it is missing from the sources. -/
def EconomicEvent.surprise (e : EconomicEvent) : Option ℚ :=
  calculate_surprise e.actual e.forecast e.direction

/-- A row of the economic_events table (storage/models.py,
EconomicEventDB). The scraped_at column is a server default never read
by the claims and is omitted. -/
structure StoredEvent where
  date : Date
  time : Option Nat
  currency : String
  impact : Impact
  event_name : String
  actual : Option ℚ
  forecast : Option ℚ
  previous : Option ℚ
  event_type : String
  direction : ℤ
  weight : Nat
  surprise : Option ℚ
  updated_at : Option Nat
deriving DecidableEq

/-- repository.py, _to_pydantic: a row read back as a pydantic event
(surprise and the timestamps are not carried over). -/
def toPydantic (r : StoredEvent) : EconomicEvent :=
  { date := r.date, time := r.time, currency := r.currency, impact := r.impact,
    event_name := r.event_name, actual := r.actual, forecast := r.forecast,
    previous := r.previous, event_type := r.event_type, direction := r.direction,
    weight := r.weight }

/-- Whether an incoming event conflicts with a stored row under the
uq_event unique constraint on (date, time, currency, event_name).
PostgreSQL treats NULLs as distinct in a unique constraint, so a row
whose time is NULL never conflicts. -/
def conflictsWith (e : EconomicEvent) (r : StoredEvent) : Bool :=
  decide (r.date = e.date) && decide (r.currency = e.currency) &&
  decide (r.event_name = e.event_name) &&
  (match e.time, r.time with
   | some t1, some t2 => decide (t1 = t2)
   | _, _ => false)

/-- The ON CONFLICT DO UPDATE set clause of upsert_events
(repository.py lines 91-103): overwrite actual, forecast, previous,
impact, event_type, direction and weight from the excluded row and
stamp updated_at; every other column, surprise included, is left as it
was. -/
def applyUpdate (e : EconomicEvent) (now : Nat) (r : StoredEvent) : StoredEvent :=
  { r with actual := e.actual, forecast := e.forecast, previous := e.previous,
           impact := e.impact, event_type := e.event_type, direction := e.direction,
           weight := e.weight, updated_at := some now }

/-- The VALUES clause of upsert_events (repository.py lines 73-88): the
inserted row carries no surprise and no updated_at. -/
def newRow (e : EconomicEvent) : StoredEvent :=
  { date := e.date, time := e.time, currency := e.currency, impact := e.impact,
    event_name := e.event_name, actual := e.actual, forecast := e.forecast,
    previous := e.previous, event_type := e.event_type, direction := e.direction,
    weight := e.weight, surprise := none, updated_at := none }

/-- One row of the INSERT ... ON CONFLICT DO UPDATE: update the
conflicting row when one exists, insert otherwise. -/
def upsertOne (e : EconomicEvent) (now : Nat) : List StoredEvent → List StoredEvent
  | [] => [newRow e]
  | r :: rest =>
      if conflictsWith e r then applyUpdate e now r :: rest
      else r :: upsertOne e now rest

/-- repository.py, upsert_events: a no-op returning 0 on an empty list,
otherwise the multi-row upsert; the returned rowcount is the number of
value rows, each of which inserts or updates one row. -/
def upsertEvents (events : List EconomicEvent) (store : List StoredEvent)
    (now : Nat) : List StoredEvent × Nat :=
  if events.isEmpty then (store, 0)
  else (events.foldl (fun st e => upsertOne e now st) store, events.length)

/-- Sort key for the time column under ORDER BY time ASC on PostgreSQL:
NULL sorts after every value (NULLS LAST is the default for ASC). -/
def timeKey : Option Nat → Nat × Nat
  | none => (1, 0)
  | some x => (0, x)

/-- Lexicographic order on pairs of naturals. -/
def pairLe (p q : Nat × Nat) : Prop :=
  p.1 < q.1 ∨ (p.1 = q.1 ∧ p.2 ≤ q.2)

instance : DecidableRel pairLe := fun p q => by
  unfold pairLe; infer_instance

/-- The ORDER BY (date, time) of get_events as executed by the
PostgreSQL backend: ascending dates, and on one date ascending times
with NULL last. -/
def rowLe (a b : StoredEvent) : Prop :=
  Date.lt a.date b.date ∨
    (a.date = b.date ∧ pairLe (timeKey a.time) (timeKey b.time))

instance : DecidableRel rowLe := fun a b => by
  unfold rowLe; infer_instance

/-- Sort key for the time column as the specification describes the
order: null time first on its date. Stated only to compare the claim
against the code; the code's key is timeKey. -/
def specTimeKey : Option Nat → Nat × Nat
  | none => (0, 0)
  | some x => (1, x)

/-- The order the specification claims for get_events: ascending dates,
null time sorting first on its date. -/
def spec_rowLe (a b : StoredEvent) : Prop :=
  Date.lt a.date b.date ∨
    (a.date = b.date ∧ pairLe (specTimeKey a.time) (specTimeKey b.time))

instance : DecidableRel spec_rowLe := fun a b => by
  unfold spec_rowLe; infer_instance

/-- The minimum-impact floor of get_events: the impact_order ranks of
repository.py (low 1, medium 2, high 3, anything else 0). Filtering a
row by membership in the names of rank at least the floor is the same
as comparing its rank to the floor, since holiday and unknown have rank
0 and are excluded whenever the filter is active. -/
def impactRank : Impact → Nat
  | .low => 1
  | .medium => 2
  | .high => 3
  | _ => 0

/-- The floor requested by the caller: the lower-cased impact argument
looked up in impact_order with default 0; a missing or empty argument
(falsy in Python) disables the filter. -/
def impactFloor : Option String → Nat
  | none => 0
  | some s =>
      if s = "" then 0
      else if s.toLower = "low" then 1
      else if s.toLower = "medium" then 2
      else if s.toLower = "high" then 3
      else 0

/-- repository.py, get_events: rows of the inclusive date range,
optionally filtered to the upper-cased currency list (the stored value
is compared as-is against the upper-cased inputs) and to the minimum
impact, ordered by (date, time) ascending. An empty currency list is
falsy in Python and disables the filter. -/
def getEvents (store : List StoredEvent) (startD endD : Date)
    (currencies : Option (List String)) (impact : Option String) :
    List StoredEvent :=
  let f1 := store.filter (fun r =>
    decide (Date.le startD r.date) && decide (Date.le r.date endD))
  let f2 :=
    match currencies with
    | some cs =>
        if cs.isEmpty then f1
        else f1.filter (fun r => (cs.map String.toUpper).contains r.currency)
    | none => f1
  let lvl := impactFloor impact
  let f3 := if lvl = 0 then f2 else f2.filter (fun r => lvl ≤ impactRank r.impact)
  f3.insertionSort rowLe

/-- repository.py, get_events_needing_update: the distinct dates of the
range, ordered ascending, that are today or later and have at least one
row whose actual is NULL. -/
def getEventsNeedingUpdate (store : List StoredEvent) (startD endD today : Date) :
    List Date :=
  let ds := (store.filter (fun r =>
    decide (Date.le startD r.date) && decide (Date.le r.date endD) &&
    decide (Date.le today r.date) && r.actual.isNone)).map (fun r => r.date)
  (ds.insertionSort Date.le).dedup

/-- How one attempt of the body of _fetch_day_with_retry can fail:
a ParsingError from the page parser, or any other exception (browser,
navigation, page load, and so on). -/
inductive AttemptErr where
  | parseFail
  | otherFail
deriving DecidableEq

/-- The exception leaving _fetch_day_with_retry: the body re-raises a
ParsingError as it is and wraps every other exception in a
ScraperError (forex_factory.py lines 286-295). -/
inductive FetchErr where
  | parsingError
  | scraperError
deriving DecidableEq

/-- The try block of _fetch_day_with_retry as a function of the
attempt's outcome: success is passed through, ParsingError is re-raised
unwrapped, anything else becomes a ScraperError. -/
def fetchBody (outcome : Except AttemptErr (List EconomicEvent)) :
    Except FetchErr (List EconomicEvent) :=
  match outcome with
  | .ok evs => .ok evs
  | .error .parseFail => .error .parsingError
  | .error .otherFail => .error .scraperError

/-- The tenacity retry decorator of _fetch_day_with_retry:
stop_after_attempt(3) with reraise=True and no retry predicate, so by
tenacity's default every exception leaving the body, a ParsingError
included, triggers a retry while attempts remain, and the exception of
the final attempt is re-raised. The oracle gives the outcome of each
numbered attempt; the backoff sleeps do not change any value and are
dropped. The result pairs the value or final exception with the number
of attempts made. -/
def retryGo (oracle : Nat → Except AttemptErr (List EconomicEvent)) :
    Nat → Nat → Except FetchErr (List EconomicEvent) × Nat
  | 0, n => (fetchBody (oracle n), n)
  | k + 1, n =>
      match fetchBody (oracle n) with
      | .ok v => (.ok v, n)
      | .error _ => retryGo oracle k (n + 1)

/-- forex_factory.py, _fetch_day_with_retry: attempt 1 with up to two
retries. -/
def fetch_day_with_retry (oracle : Nat → Except AttemptErr (List EconomicEvent)) :
    Except FetchErr (List EconomicEvent) × Nat :=
  retryGo oracle 2 1

/-- The event cell of a calendar row: the optional title span and the
cell's own text, both already stripped. -/
structure EventCell where
  titleText : Option String
  cellText : String
deriving DecidableEq

/-- One element of soup.select("tr.calendar__row") reduced to the cell
texts _parse_calendar_page reads. A none field is an absent cell (or,
for the impact icon, an absent cell or icon); texts are as
get_text(strip=True) returns them. Markup that contains no
tr.calendar__row element at all, however malformed otherwise, is the
empty row list. -/
structure RawRow where
  dateText : Option String
  timeText : Option String
  currencyText : Option String
  impactIconClass : Option String
  eventCell : Option EventCell
  actualText : Option String
  forecastText : Option String
  previousText : Option String
deriving DecidableEq

/-- The parse failure raised by _parse_calendar_page. -/
inductive ParseErr where
  | parsing
deriving DecidableEq

/-- Month abbreviations as strptime's %b accepts them
(case-insensitive). -/
def monthAbbrNum (s : String) : Option Nat :=
  match s.toLower with
  | "jan" => some 1
  | "feb" => some 2
  | "mar" => some 3
  | "apr" => some 4
  | "may" => some 5
  | "jun" => some 6
  | "jul" => some 7
  | "aug" => some 8
  | "sep" => some 9
  | "oct" => some 10
  | "nov" => some 11
  | "dec" => some 12
  | _ => none

/-- strptime(date_text + " " + year, "%b %d %Y") of the parser's date
cell handling: an abbreviated month, a space, a day of one or two
digits that is valid for that month; none where strptime raises (the
surrounding try swallows the error and keeps the previous date). -/
def parseDateText (s : String) (year : Nat) : Option Date :=
  match s.splitOn " " with
  | [mon, dstr] =>
      match monthAbbrNum mon, dstr.toNat? with
      | some m, some d =>
          if dstr.length ≤ 2 ∧ 1 ≤ d ∧ d ≤ daysInMonth year m then some ⟨year, m, d⟩
          else none
      | _, _ => none
  | _ => none

/-- Numeric value of a digit character. -/
def digitVal (c : Char) : Nat :=
  c.toNat - 48

/-- The minutes-and-meridiem tail of the clock regex of _parse_time:
two digit minutes, then am or pm, then anything (re.match only anchors
the start). The 12-hour adjustment is the code's; a resulting hour or
minute that the time constructor rejects is swallowed by the
surrounding try and becomes none. -/
def clockTail (h : Nat) : List Char → Option Nat
  | m1 :: m2 :: p :: 'm' :: _ =>
      if m1.isDigit && m2.isDigit then
        let mins := digitVal m1 * 10 + digitVal m2
        let hour :=
          if p = 'p' then (if h ≠ 12 then h + 12 else h)
          else if p = 'a' then (if h = 12 then 0 else h)
          else 100
        if p = 'a' ∨ p = 'p' then
          if hour ≤ 23 ∧ mins ≤ 59 then some (hour * 60 + mins) else none
        else none
      else none
  | _ => none

/-- The clock regex (one or two digits, a colon, two digits, am or pm)
matched at the start of the string, backtracking on the hour width as
re.match does. -/
def matchClock : List Char → Option Nat
  | a :: b :: c :: rest =>
      if a.isDigit && b.isDigit && c = ':' then
        clockTail (digitVal a * 10 + digitVal b) rest
      else if a.isDigit && b = ':' then
        clockTail (digitVal a) (c :: rest)
      else none
  | _ => none

/-- forex_factory.py, _parse_time: strip and lower-case, return none
for the all-day and tentative markers, otherwise match the clock
pattern; the result is minutes after midnight. -/
def parseTimeText (s : String) : Option Nat :=
  let t := (String.mk (pyStrip s.toList)).toLower
  if t = "" ∨ t = "all day" ∨ t = "tentative" ∨ t = "day" then none
  else matchClock t.toList

/-- Whether the needle occurs as a contiguous substring of the
haystack, the Python in operator on strings. -/
def infixOf (needle : List Char) : List Char → Bool
  | [] => needle.isEmpty
  | c :: rest => needle.isPrefixOf (c :: rest) || infixOf needle rest

/-- forex_factory.py, _parse_impact: the joined class string of the
impact icon mapped through the icon--ff-impact-* substrings; an absent
cell or icon is unknown. -/
def parseImpact (iconClass : Option String) : Impact :=
  match iconClass with
  | none => .unknown
  | some cls =>
      if infixOf "icon--ff-impact-red".toList cls.toList then .high
      else if infixOf "icon--ff-impact-ora".toList cls.toList then .medium
      else if infixOf "icon--ff-impact-yel".toList cls.toList then .low
      else if infixOf "icon--ff-impact-gra".toList cls.toList then .holiday
      else .unknown

/-- forex_factory.py, _parse_value: the stripped cell text, none when
the cell is absent or its text is empty. -/
def parseValueCell : Option String → Option String
  | none => none
  | some t => if t = "" then none else some t

/-- The classification the pydantic event construction attaches to a
display name: event type, direction and weight. The enriched model is
missing from the sources, so the claims about the parser are stated for
every classifier. -/
def Classifier : Type :=
  String → String × ℤ × Nat

/-- The date carry-over of the row loop: a row with a nonempty date
cell that strptime accepts updates the current date, anything else
keeps it. -/
def stepDate (r : RawRow) (targetDate : Date) (curDate : Date) : Date :=
  match r.dateText with
  | some s =>
      if s ≠ "" then
        match parseDateText s targetDate.year with
        | some d => d
        | none => curDate
      else curDate
  | none => curDate

/-- The time carry-over of the row loop: a row with a nonempty time
cell replaces the current time with the parse result (which may itself
be none, as for an all-day marker), anything else keeps it. -/
def stepTime (r : RawRow) (curTime : Option Nat) : Option Nat :=
  match r.timeText with
  | some s => if s ≠ "" then parseTimeText s else curTime
  | none => curTime

/-- The event name of a row: the title span's text when the span is
present, otherwise the whole cell text. -/
def stepName (ec : EventCell) : String :=
  match ec.titleText with
  | some t => t
  | none => ec.cellText

/-- The EconomicEvent constructed for one accepted row: raw values
captured from the cells, normalized at construction, and classified
from the display name. -/
def buildEvent (classify : Classifier) (r : RawRow) (curDate : Date)
    (curTime : Option Nat) (c : String) (name : String) : EconomicEvent :=
  let aRaw := parseValueCell r.actualText
  let fRaw := parseValueCell r.forecastText
  let pRaw := parseValueCell r.previousText
  let meta := classify name
  { date := curDate, time := curTime, currency := c,
    impact := parseImpact r.impactIconClass, event_name := name,
    actual := normalize_value aRaw, forecast := normalize_value fRaw,
    previous := normalize_value pRaw, event_type := meta.1,
    direction := meta.2.1, weight := meta.2.2,
    actual_raw := aRaw, forecast_raw := fRaw, previous_raw := pRaw }

/-- The row loop of _parse_calendar_page, carrying the current date and
current time across rows. A row without a currency or event-name cell
is skipped; a currency whose length pydantic rejects (outside 2..5)
raises inside the try and surfaces as the ParsingError of the whole
page; values are captured raw and normalized at event construction. -/
def parseRowsAux (classify : Classifier) (targetDate : Date) :
    List RawRow → Date → Option Nat → Except ParseErr (List EconomicEvent)
  | [], _, _ => .ok []
  | r :: rest, curDate, curTime =>
    match r.currencyText with
    | none =>
        parseRowsAux classify targetDate rest (stepDate r targetDate curDate)
          (stepTime r curTime)
    | some c =>
      if c = "" then
        parseRowsAux classify targetDate rest (stepDate r targetDate curDate)
          (stepTime r curTime)
      else
        match r.eventCell with
        | none =>
            parseRowsAux classify targetDate rest (stepDate r targetDate curDate)
              (stepTime r curTime)
        | some ec =>
          if stepName ec = "" then
            parseRowsAux classify targetDate rest (stepDate r targetDate curDate)
              (stepTime r curTime)
          else if ¬ (2 ≤ c.length ∧ c.length ≤ 5) then .error .parsing
          else
            match parseRowsAux classify targetDate rest
                (stepDate r targetDate curDate) (stepTime r curTime) with
            | .ok evs =>
                .ok (buildEvent classify r (stepDate r targetDate curDate)
                  (stepTime r curTime) c (stepName ec) :: evs)
            | .error e => .error e

/-- forex_factory.py, _parse_calendar_page: the row loop started at the
target date with no current time. -/
def parseCalendarPage (classify : Classifier) (rows : List RawRow)
    (targetDate : Date) : Except ParseErr (List EconomicEvent) :=
  parseRowsAux classify targetDate rows targetDate none

/-- Result of the month pass of the sync service: the store after the
per-day commits and the dates for which a day fetch was triggered. -/
structure MonthSyncResult where
  store : List StoredEvent
  fetched : List Date
deriving DecidableEq

/-- The day loop of _scrape_and_store_month (services.py lines
195-230): skip the days of the skip set, otherwise fetch the day,
upsert and commit; a day whose fetch raises is caught, logged and
skipped, and the loop continues with the next day. The scraper oracle
gives each date's outcome; an error value is the exception fetch_day
finally raises. -/
def scrapeStoreDays (scraper : Date → Except Unit (List EconomicEvent)) (now : Nat)
    (skips : List Date) : List Date → List StoredEvent → MonthSyncResult
  | [], store => ⟨store, []⟩
  | d :: rest, store =>
      if d ∈ skips then scrapeStoreDays scraper now skips rest store
      else
        match scraper d with
        | .ok evs =>
            let r := scrapeStoreDays scraper now skips rest (upsertEvents evs store now).1
            ⟨r.store, d :: r.fetched⟩
        | .error _ =>
            let r := scrapeStoreDays scraper now skips rest store
            ⟨r.store, d :: r.fetched⟩

/-- services.py, _scrape_and_store_month: with skip_existing the skip
set is the set of dates of the month that already have events in the
store, otherwise it is empty; then the day loop over every day of the
month. -/
def scrapeAndStoreMonth (y m : Nat) (skipExisting : Bool)
    (scraper : Date → Except Unit (List EconomicEvent)) (now : Nat)
    (store : List StoredEvent) : MonthSyncResult :=
  let skips :=
    if skipExisting then
      (getEvents store ⟨y, m, 1⟩ ⟨y, m, daysInMonth y m⟩ none none).map (fun r => r.date)
    else []
  scrapeStoreDays scraper now skips (monthDates y m) store

/-- Result of the needs-refresh pass: the store after the per-date
commits, the dates for which a day fetch was triggered, and whether an
uncaught exception aborted the pass. -/
structure DatesSyncResult where
  store : List StoredEvent
  fetched : List Date
  aborted : Bool
deriving DecidableEq

/-- services.py, _scrape_and_store_dates: fetch, upsert and commit each
date in order. The loop body has no exception handler, so the first
date whose fetch raises aborts the pass: the exception propagates and
the remaining dates are not fetched. -/
def scrapeAndStoreDates (scraper : Date → Except Unit (List EconomicEvent))
    (now : Nat) : List Date → List StoredEvent → DatesSyncResult
  | [], store => ⟨store, [], false⟩
  | d :: rest, store =>
      match scraper d with
      | .ok evs =>
          let r := scrapeAndStoreDates scraper now rest (upsertEvents evs store now).1
          ⟨r.store, d :: r.fetched, r.aborted⟩
      | .error _ => ⟨store, [d], true⟩

/-- Result of one fetch_month request: the filtered view handed back
(none when the request aborted with an exception), the store of
committed rows, the dates fetched, and the abort flag. -/
structure FetchMonthResult where
  events : Option (List EconomicEvent)
  store : List StoredEvent
  fetched : List Date
  aborted : Bool

/-- services.py, fetch_month. With force_refresh the whole month is
scraped with an empty skip set. Without it, the month pass runs with
skip_existing, then the needs-refresh dates of the stored month are
re-scraped (a pass whose failure propagates to the caller, the per-date
commits remaining durable), and finally the stored view filtered by
currencies and impact is returned. -/
def fetch_month (y m : Nat) (currencies : Option (List String))
    (impact : Option String) (forceRefresh : Bool)
    (store₀ : List StoredEvent)
    (scraper : Date → Except Unit (List EconomicEvent))
    (today : Date) (now : Nat) : FetchMonthResult :=
  let startD : Date := ⟨y, m, 1⟩
  let endD : Date := ⟨y, m, daysInMonth y m⟩
  if forceRefresh then
    let p1 := scrapeAndStoreMonth y m false scraper now store₀
    ⟨some ((getEvents p1.store startD endD currencies impact).map toPydantic),
      p1.store, p1.fetched, false⟩
  else
    let p1 := scrapeAndStoreMonth y m true scraper now store₀
    let toUpdate := getEventsNeedingUpdate p1.store startD endD today
    let p2 := scrapeAndStoreDates scraper now toUpdate p1.store
    if p2.aborted then ⟨none, p2.store, p1.fetched ++ p2.fetched, true⟩
    else
      ⟨some ((getEvents p2.store startD endD currencies impact).map toPydantic),
        p2.store, p1.fetched ++ p2.fetched, false⟩

/-- Whether processing a calendar row reaches event construction with a
currency text whose length pydantic rejects: the only place an
exception can arise inside the row loop (every other fallible step is
wrapped in its own try or guarded by a skip). -/
def rowRaises (r : RawRow) : Bool :=
  match r.currencyText with
  | none => false
  | some c =>
      if c = "" then false
      else
        match r.eventCell with
        | none => false
        | some ec =>
            if stepName ec = "" then false
            else !(decide (2 ≤ c.length) && decide (c.length ≤ 5))

/-- A stored row whose surprise column holds a value, for exercising
the upsert's conflict clause. -/
def sampleStoredRow : StoredEvent :=
  { date := ⟨2026, 1, 15⟩, time := some 510, currency := "USD", impact := .high,
    event_name := "Non-Farm Employment Change", actual := none,
    forecast := some 200000, previous := some 180000,
    event_type := "employment", direction := 1, weight := 10,
    surprise := some 7, updated_at := none }

/-- An incoming event with the same natural key as sampleStoredRow and
a freshly published actual. -/
def sampleUpsertEvent : EconomicEvent :=
  { date := ⟨2026, 1, 15⟩, time := some 510, currency := "USD", impact := .high,
    event_name := "Non-Farm Employment Change", actual := some 300000,
    forecast := some 200000, previous := some 180000,
    event_type := "employment", direction := 1, weight := 10 }

/-- A stored row with a time of day, for the ordering claim. -/
def timedRow : StoredEvent :=
  { date := ⟨2026, 1, 15⟩, time := some 540, currency := "USD", impact := .high,
    event_name := "CPI m/m", actual := none, forecast := none, previous := none,
    event_type := "inflation", direction := 1, weight := 9,
    surprise := none, updated_at := none }

/-- A stored row of the same date with a NULL time, for the ordering
claim. -/
def allDayRow : StoredEvent :=
  { date := ⟨2026, 1, 15⟩, time := none, currency := "EUR", impact := .holiday,
    event_name := "Bank Holiday", actual := none, forecast := none,
    previous := none, event_type := "other", direction := 1, weight := 1,
    surprise := none, updated_at := none }

/-- A store holding one event on each of the days 1 to 28 of January
2026, all with a published actual. -/
def cachedJanStore : List StoredEvent :=
  (List.range 28).map (fun i =>
    { date := ⟨2026, 1, i + 1⟩, time := none, currency := "US", impact := .low,
      event_name := "E", actual := some 1, forecast := none, previous := none,
      event_type := "other", direction := 1, weight := 1,
      surprise := none, updated_at := none })

/-- A scraper oracle for which every day fetch succeeds with no
events. -/
def okEmptyScraper : Date → Except Unit (List EconomicEvent) :=
  fun _ => .ok []

/-- A store holding events on January 10 and 12 of 2026 whose actual is
still NULL, so both dates need a refresh. -/
def pendingJanStore : List StoredEvent :=
  [{ date := ⟨2026, 1, 10⟩, time := none, currency := "US", impact := .low,
     event_name := "E", actual := none, forecast := none, previous := none,
     event_type := "other", direction := 1, weight := 1,
     surprise := none, updated_at := none },
   { date := ⟨2026, 1, 12⟩, time := none, currency := "US", impact := .low,
     event_name := "E", actual := none, forecast := none, previous := none,
     event_type := "other", direction := 1, weight := 1,
     surprise := none, updated_at := none }]

/-- A scraper oracle that fails on January 10 of 2026 and succeeds with
no events elsewhere. -/
def failJan10Scraper : Date → Except Unit (List EconomicEvent) :=
  fun d => if d = ⟨2026, 1, 10⟩ then .error () else .ok []

/-! Helper lemmas shared by the claim theorems. -/

theorem Date.lt_trichotomy (a b : Date) : Date.lt a b ∨ a = b ∨ Date.lt b a := by
  obtain ⟨y1, m1, d1⟩ := a
  obtain ⟨y2, m2, d2⟩ := b
  simp only [Date.lt, Date.mk.injEq]
  omega

theorem Date.lt_irrefl (a : Date) : ¬ Date.lt a a := by
  obtain ⟨y1, m1, d1⟩ := a
  simp only [Date.lt]
  omega

theorem Date.lt_trans' {a b c : Date} (h1 : Date.lt a b) (h2 : Date.lt b c) :
    Date.lt a c := by
  obtain ⟨y1, m1, d1⟩ := a
  obtain ⟨y2, m2, d2⟩ := b
  obtain ⟨y3, m3, d3⟩ := c
  simp only [Date.lt] at h1 h2 ⊢
  omega

theorem pairLe_total (p q : Nat × Nat) : pairLe p q ∨ pairLe q p := by
  obtain ⟨p1, p2⟩ := p
  obtain ⟨q1, q2⟩ := q
  simp only [pairLe]
  omega

theorem pairLe_trans {p q s : Nat × Nat} (h1 : pairLe p q) (h2 : pairLe q s) :
    pairLe p s := by
  obtain ⟨p1, p2⟩ := p
  obtain ⟨q1, q2⟩ := q
  obtain ⟨s1, s2⟩ := s
  simp only [pairLe] at h1 h2 ⊢
  omega

instance : IsTotal StoredEvent rowLe := by
  constructor
  intro a b
  rcases Date.lt_trichotomy a.date b.date with h | h | h
  · exact Or.inl (Or.inl h)
  · rcases pairLe_total (timeKey a.time) (timeKey b.time) with ht | ht
    · exact Or.inl (Or.inr ⟨h, ht⟩)
    · exact Or.inr (Or.inr ⟨h.symm, ht⟩)
  · exact Or.inr (Or.inl h)

instance : IsTrans StoredEvent rowLe := by
  constructor
  intro a b c hab hbc
  rcases hab with h1 | ⟨e1, t1⟩
  · rcases hbc with h2 | ⟨e2, _⟩
    · exact Or.inl (Date.lt_trans' h1 h2)
    · exact Or.inl (e2 ▸ h1)
  · rcases hbc with h2 | ⟨e2, t2⟩
    · exact Or.inl (e1 ▸ h2)
    · exact Or.inr ⟨e1.trans e2, pairLe_trans t1 t2⟩

/-- Every date of a month is within the month's first-to-last range. -/
theorem monthDates_range {y m : Nat} {d : Date} (hd : d ∈ monthDates y m) :
    Date.le ⟨y, m, 1⟩ d ∧ Date.le d ⟨y, m, daysInMonth y m⟩ := by
  simp only [monthDates, List.mem_map, List.mem_range] at hd
  obtain ⟨i, hi, rfl⟩ := hd
  constructor
  · simp only [Date.le, Date.lt, Date.mk.injEq, true_and, and_true]
    omega
  · simp only [Date.le, Date.lt, Date.mk.injEq, true_and, and_true]
    omega

/-- Without a currency or impact argument, get_events is the sorted
date-range filter. -/
theorem getEvents_none_none (store : List StoredEvent) (s e : Date) :
    getEvents store s e none none =
      (store.filter (fun r =>
        decide (Date.le s r.date) && decide (Date.le r.date e))).insertionSort rowLe :=
  rfl

/-- The dates appearing in the unfiltered month view of the store are
exactly the dates of the month that have a row in the store. -/
theorem mem_monthView_dates {store : List StoredEvent} {y m : Nat} {d : Date}
    (hd : d ∈ monthDates y m) :
    (d ∈ (getEvents store ⟨y, m, 1⟩ ⟨y, m, daysInMonth y m⟩ none none).map
        (fun r => r.date)) ↔ ∃ r ∈ store, r.date = d := by
  obtain ⟨h1, h2⟩ := monthDates_range hd
  rw [getEvents_none_none, List.mem_map]
  constructor
  · rintro ⟨r, hr, rfl⟩
    have hr' := (List.perm_insertionSort rowLe _).mem_iff.mp hr
    rw [List.mem_filter] at hr'
    exact ⟨r, hr'.1, rfl⟩
  · rintro ⟨r, hr, rfl⟩
    refine ⟨r, ?_, rfl⟩
    rw [(List.perm_insertionSort rowLe _).mem_iff, List.mem_filter]
    refine ⟨hr, ?_⟩
    simp only [Bool.and_eq_true, decide_eq_true_eq]
    exact ⟨h1, h2⟩

/-- The day loop fetches exactly the days outside the skip set, whether
or not individual scrapes fail. -/
theorem scrapeStoreDays_fetched (scraper : Date → Except Unit (List EconomicEvent))
    (now : Nat) (skips : List Date) :
    ∀ (days : List Date) (store : List StoredEvent),
      (scrapeStoreDays scraper now skips days store).fetched =
        days.filter (fun d => decide (d ∉ skips)) := by
  intro days
  induction days with
  | nil => intro store; rfl
  | cons d rest ih =>
      intro store
      by_cases hd : d ∈ skips
      · simp [scrapeStoreDays, hd, ih]
      · cases hs : scraper d with
        | ok evs => simp [scrapeStoreDays, hd, hs, ih]
        | error u => simp [scrapeStoreDays, hd, hs, ih]

/-- When every requested date scrapes successfully, the needs-refresh
pass fetches exactly the requested dates and does not abort. -/
theorem scrapeAndStoreDates_ok (scraper : Date → Except Unit (List EconomicEvent))
    (now : Nat) :
    ∀ (dates : List Date) (store : List StoredEvent),
      (∀ d ∈ dates, (scraper d).isOk = true) →
      (scrapeAndStoreDates scraper now dates store).aborted = false ∧
      (scrapeAndStoreDates scraper now dates store).fetched = dates := by
  intro dates
  induction dates with
  | nil => intro store _; exact ⟨rfl, rfl⟩
  | cons d rest ih =>
      intro store h
      cases hs : scraper d with
      | ok evs =>
          have := ih ((upsertEvents evs store now).1) (fun x hx => h x (List.mem_cons_of_mem _ hx))
          simp [scrapeAndStoreDates, hs, this.1, this.2]
      | error u =>
          have := h d (List.mem_cons_self d rest)
          rw [hs] at this
          simp [Except.isOk, Except.toBool] at this

/-- The first failing date of the needs-refresh pass aborts it: the
dates before it and the failing date itself are fetched, nothing
after. -/
theorem scrapeAndStoreDates_aborts (scraper : Date → Except Unit (List EconomicEvent))
    (now : Nat) (d : Date) (l₂ : List Date) :
    ∀ (l₁ : List Date) (store : List StoredEvent),
      (∀ x ∈ l₁, (scraper x).isOk = true) →
      (scraper d).isOk = false →
      (scrapeAndStoreDates scraper now (l₁ ++ d :: l₂) store).aborted = true ∧
      (scrapeAndStoreDates scraper now (l₁ ++ d :: l₂) store).fetched = l₁ ++ [d] := by
  intro l₁
  induction l₁ with
  | nil =>
      intro store _ hd
      cases hs : scraper d with
      | ok evs => rw [hs] at hd; simp [Except.isOk, Except.toBool] at hd
      | error u => simp [scrapeAndStoreDates, hs]
  | cons x rest ih =>
      intro store h hd
      cases hs : scraper x with
      | ok evs =>
          have := ih ((upsertEvents evs store now).1)
            (fun z hz => h z (List.mem_cons_of_mem _ hz)) hd
          simp [scrapeAndStoreDates, hs, this.1, this.2]
      | error u =>
          have := h x (List.mem_cons_self x rest)
          rw [hs] at this
          simp [Except.isOk, Except.toBool] at this

/-! Claim theorems. -/

/-- C7: calculate_decay fails with the invalid-config error exactly
when the half-life is nonpositive; with a positive half-life it returns
1.0 for a negative elapsed time and one half to the power elapsed over
half-life otherwise; in particular decay at 0 elapsed hours is 1, at 48
hours with half-life 48 it is one half, at 96 hours one quarter, and a
future event (elapsed -24 hours) gets 1. -/
theorem decay_spec_c7 :
    (∀ e r h : ℝ, h ≤ 0 → calculate_decay e r h = .error .invalidConfig) ∧
    (∀ e r h : ℝ, 0 < h → r - e < 0 → calculate_decay e r h = .ok 1) ∧
    (∀ e r h : ℝ, 0 < h → 0 ≤ r - e →
      calculate_decay e r h = .ok ((1 / 2 : ℝ) ^ ((r - e) / h))) ∧
    calculate_decay 0 0 48 = .ok 1 ∧
    calculate_decay 0 48 48 = .ok (1 / 2) ∧
    calculate_decay 0 96 48 = .ok (1 / 4) ∧
    calculate_decay 24 0 48 = .ok 1 ∧
    calculate_decay 0 1 0 = .error .invalidConfig := by
  have hgen : ∀ e r h : ℝ, 0 < h → 0 ≤ r - e →
      calculate_decay e r h = .ok ((1 / 2 : ℝ) ^ ((r - e) / h)) := by
    intro e r h hh hd
    unfold calculate_decay
    rw [if_neg (not_le.mpr hh), if_neg (not_lt.mpr hd)]
  refine ⟨?_, ?_, hgen, ?_, ?_, ?_, ?_, ?_⟩
  · intro e r h hh
    unfold calculate_decay
    rw [if_pos hh]
  · intro e r h hh hd
    unfold calculate_decay
    rw [if_neg (not_le.mpr hh), if_pos hd]
  · rw [hgen 0 0 48 (by norm_num) (by norm_num)]
    norm_num
  · rw [hgen 0 48 48 (by norm_num) (by norm_num)]
    rw [show ((48 : ℝ) - 0) / 48 = 1 by norm_num, Real.rpow_one]
  · rw [hgen 0 96 48 (by norm_num) (by norm_num)]
    rw [show ((96 : ℝ) - 0) / 48 = ((2 : ℕ) : ℝ) by norm_num, Real.rpow_natCast]
    norm_num
  · unfold calculate_decay
    rw [if_neg (by norm_num), if_pos (by norm_num)]
  · unfold calculate_decay
    rw [if_pos le_rfl]

/-- C7 witness: the general nonpositive-half-life clause of the claim
theorem applied at half-life -1. -/
theorem decay_spec_c7_witness :
    calculate_decay 5 9 (-1) = .error .invalidConfig :=
  decay_spec_c7.1 5 9 (-1) (by norm_num)

/-- C10: with a positive half-life, the decay factor always exists and
lies in the half-open interval (0, 1]. -/
theorem decay_range_c10 (e r h : ℝ) (hh : 0 < h) :
    ∃ x, calculate_decay e r h = .ok x ∧ 0 < x ∧ x ≤ 1 := by
  unfold calculate_decay
  rw [if_neg (not_le.mpr hh)]
  by_cases hlt : r - e < 0
  · rw [if_pos hlt]
    exact ⟨1, rfl, one_pos, le_refl 1⟩
  · rw [if_neg hlt]
    refine ⟨_, rfl, ?_, ?_⟩
    · exact Real.rpow_pos_of_pos (by norm_num) _
    · exact Real.rpow_le_one (by norm_num) (by norm_num)
        (div_nonneg (not_lt.mp hlt) hh.le)

/-- C10 witness: the bound at elapsed 100 hours with half-life 48. -/
theorem decay_range_c10_witness :
    ∃ x, calculate_decay 0 100 48 = .ok x ∧ 0 < x ∧ x ≤ 1 :=
  decay_range_c10 0 100 48 (by norm_num)

/-- C9: the pair bias is antisymmetric in base and quote, and for a
nonnegative threshold swapping base and quote turns BULLISH into
BEARISH, BEARISH into BULLISH and keeps NEUTRAL. -/
theorem pair_bias_antisymm_c9 :
    (∀ a b : ℝ, calculate_pair_bias a b = -calculate_pair_bias b a) ∧
    (∀ a b t : ℝ, 0 ≤ t →
      get_bias_signal (calculate_pair_bias b a) t =
        Signal.flip (get_bias_signal (calculate_pair_bias a b) t)) := by
  constructor
  · intro a b
    unfold calculate_pair_bias
    ring
  · intro a b t ht
    unfold calculate_pair_bias get_bias_signal
    split_ifs <;> first
      | rfl
      | (exfalso; linarith)

/-- C9 witness: the signal-swap clause at scores 5 and 1 with
threshold 1. -/
theorem pair_bias_antisymm_c9_witness :
    get_bias_signal (calculate_pair_bias 1 5) 1 =
      Signal.flip (get_bias_signal (calculate_pair_bias 5 1) 1) :=
  pair_bias_antisymm_c9.2 5 1 1 zero_le_one

/-- C8: normalize_value is total: every input yields none or a value
(no exception path remains unguarded in the embedding of the code), a
missing value and an empty or whitespace-only string yield none, a
string the grammar rejects (such as N/A) yields none, and in general
any string the pattern does not match yields none rather than a
partial parse. -/
theorem normalize_total_c8 :
    normalize_value none = none ∧
    normalize_value (some "") = none ∧
    normalize_value (some "   ") = none ∧
    normalize_value (some "N/A") = none ∧
    (∀ s : String, matchValuePattern (pyStrip s.toList) = none →
      normalize_value (some s) = none) ∧
    (∀ inp : Option String,
      normalize_value inp = none ∨ ∃ q, normalize_value inp = some q) := by
  refine ⟨rfl, rfl, rfl, rfl, ?_, ?_⟩
  · intro s hm
    have hm' : matchValuePattern (pyStrip s.data) = none := hm
    unfold normalize_value
    simp [hm']
  · intro inp
    cases h : normalize_value inp with
    | none => exact Or.inl rfl
    | some q => exact Or.inr ⟨q, rfl⟩

/-- C8 witness: the no-match clause of the claim theorem applied to a
concrete unparsable string. -/
theorem normalize_total_c8_witness :
    matchValuePattern (pyStrip (String.toList "abc")) = none ∧
    normalize_value (some "abc") = none :=
  ⟨rfl, normalize_total_c8.2.2.2.2.1 "abc" rfl⟩

/-- C2 counterexample: a first attempt that raises ParsingError is not
re-raised immediately; the decorator retries and, when the second
attempt succeeds, the call returns its result after two attempts, not
the ParsingError after one. -/
theorem retry_parsing_c2_counterexample :
    (fun n => if n = 1 then Except.error AttemptErr.parseFail
              else Except.ok ([] : List EconomicEvent)) 1 =
        Except.error AttemptErr.parseFail ∧
    fetch_day_with_retry
        (fun n => if n = 1 then Except.error AttemptErr.parseFail
                  else Except.ok ([] : List EconomicEvent)) =
      (Except.ok [], 2) ∧
    (2 : Nat) ≠ 1 :=
  ⟨rfl, rfl, by decide⟩

/-- C2 amended: every failure kind, ParsingError included, is retried
up to 3 total attempts; success on an attempt stops the loop and the
third attempt's outcome is final; ParsingError is special only in that
it leaves the call unwrapped while any other failure is wrapped as a
ScraperError. -/
theorem retry_policy_c2 :
    (∀ (oracle : Nat → Except AttemptErr (List EconomicEvent)) v,
      oracle 1 = .ok v → fetch_day_with_retry oracle = (.ok v, 1)) ∧
    (∀ (oracle : Nat → Except AttemptErr (List EconomicEvent)) e v,
      oracle 1 = .error e → oracle 2 = .ok v →
      fetch_day_with_retry oracle = (.ok v, 2)) ∧
    (∀ (oracle : Nat → Except AttemptErr (List EconomicEvent)) e₁ e₂,
      oracle 1 = .error e₁ → oracle 2 = .error e₂ →
      fetch_day_with_retry oracle = (fetchBody (oracle 3), 3)) ∧
    fetchBody (.error .parseFail) = .error .parsingError ∧
    fetchBody (.error .otherFail) = .error .scraperError := by
  refine ⟨?_, ?_, ?_, rfl, rfl⟩
  · intro o v h
    simp [fetch_day_with_retry, retryGo, h, fetchBody]
  · intro o e v h1 h2
    cases e <;> simp [fetch_day_with_retry, retryGo, h1, h2, fetchBody]
  · intro o e₁ e₂ h1 h2
    cases e₁ <;> cases e₂ <;>
      simp [fetch_day_with_retry, retryGo, h1, h2, fetchBody]

/-- C2 witness: the amended retry clause applied to a concrete oracle
whose first attempt fails with a non-parsing error and whose second
succeeds. -/
theorem retry_policy_c2_witness :
    fetch_day_with_retry
        (fun n => if n = 1 then Except.error AttemptErr.otherFail
                  else Except.ok ([] : List EconomicEvent)) =
      (Except.ok [], 2) :=
  retry_policy_c2.2.1 _ AttemptErr.otherFail [] rfl rfl

/-- When no row of the page reaches event construction with a currency
pydantic rejects, the row loop succeeds. -/
theorem parseRowsAux_ok (classify : Classifier) (td : Date) :
    ∀ (rows : List RawRow) (curD : Date) (curT : Option Nat),
      (∀ r ∈ rows, rowRaises r = false) →
      ∃ evs, parseRowsAux classify td rows curD curT = .ok evs := by
  intro rows
  induction rows with
  | nil => exact fun _ _ _ => ⟨[], rfl⟩
  | cons r rest ih =>
      intro curD curT h
      have hr := h r (List.mem_cons_self r rest)
      have hrest := fun x hx => h x (List.mem_cons_of_mem r hx)
      rcases hc : r.currencyText with _ | c
      · simp only [parseRowsAux, hc]
        exact ih _ _ hrest
      · by_cases hce : c = ""
        · simp only [parseRowsAux, hc, hce, if_true]
          exact ih _ _ hrest
        · rcases hec : r.eventCell with _ | ec
          · simp only [parseRowsAux, hc, if_neg hce, hec]
            exact ih _ _ hrest
          · by_cases hn : stepName ec = ""
            · simp only [parseRowsAux, hc, if_neg hce, hec, hn, if_true]
              exact ih _ _ hrest
            · have hlen : 2 ≤ c.length ∧ c.length ≤ 5 := by
                rw [rowRaises, hc] at hr
                simp only [if_neg hce, hec, if_neg hn, Bool.not_eq_false',
                  Bool.and_eq_true, decide_eq_true_eq] at hr
                exact hr
              obtain ⟨evs, he⟩ := ih (stepDate r td curD) (stepTime r curT) hrest
              refine ⟨buildEvent classify r (stepDate r td curD) (stepTime r curT)
                c (stepName ec) :: evs, ?_⟩
              simp only [parseRowsAux, hc, if_neg hce, hec, if_neg hn,
                if_neg (not_not_intro hlen), he]

/-- C3 counterexample: markup whose structure is malformed but contains
no calendar-row element (the empty row list; the repository's own test
uses an html body with an empty table) parses to the empty event list,
not to a ParsingError. -/
theorem parse_norows_c3_counterexample :
    parseCalendarPage (fun _ => ("other", 1, 1)) [] ⟨2026, 1, 18⟩ = .ok [] ∧
    (Except.ok ([] : List EconomicEvent) ≠
      (Except.error .parsing : Except ParseErr (List EconomicEvent))) :=
  ⟨rfl, by simp⟩

/-- C3 amended: markup with no calendar-row structure parses to the
empty list (indistinguishable from a day with no events), and so does
any page whose rows are all skippable or well formed; a ParsingError
arises exactly from processing a matched row that fails event
construction, such as a currency cell of length outside 2..5 next to a
nonempty event name. -/
theorem parse_malformed_c3 :
    (∀ (classify : Classifier) (d : Date),
      parseCalendarPage classify [] d = .ok []) ∧
    (∀ (classify : Classifier) (d : Date) (rows : List RawRow),
      (∀ r ∈ rows, rowRaises r = false) →
      ∃ evs, parseCalendarPage classify rows d = .ok evs) ∧
    (∀ (classify : Classifier) (d : Date),
      parseCalendarPage classify
        [{ dateText := none, timeText := none, currencyText := some "X",
           impactIconClass := none,
           eventCell := some ⟨some "CPI m/m", "CPI m/m"⟩,
           actualText := none, forecastText := none, previousText := none }] d =
        .error .parsing) := by
  refine ⟨fun _ _ => rfl, ?_, fun _ _ => rfl⟩
  intro classify d rows h
  exact parseRowsAux_ok classify d rows d none h

/-- C3 witness: the all-rows-safe clause of the amended theorem applied
to a one-row page with a well-formed currency. -/
theorem parse_malformed_c3_witness :
    ∃ evs, parseCalendarPage (fun _ => ("other", 1, 1))
      [{ dateText := none, timeText := some "8:30am", currencyText := some "USD",
         impactIconClass := some "icon icon--ff-impact-red",
         eventCell := some ⟨some "Non-Farm Employment Change", ""⟩,
         actualText := some "223K", forecastText := some "215K",
         previousText := some "212K" }] ⟨2026, 1, 18⟩ = .ok evs :=
  parse_malformed_c3.2.1 (fun _ => ("other", 1, 1)) ⟨2026, 1, 18⟩ _
    (by intro r hr; simp at hr; subst hr; rfl)

/-- The single-row upsert on a store whose first conflicting row is r:
the update lands on r and everything else is untouched. -/
theorem upsertOne_append (e : EconomicEvent) (now : Nat) (r : StoredEvent)
    (post : List StoredEvent) :
    ∀ pre : List StoredEvent, (∀ x ∈ pre, conflictsWith e x = false) →
      conflictsWith e r = true →
      upsertOne e now (pre ++ r :: post) = pre ++ applyUpdate e now r :: post := by
  intro pre
  induction pre with
  | nil => intro _ hr; simp [upsertOne, hr]
  | cons x xs ih =>
      intro h hr
      have hx := h x (List.mem_cons_self x xs)
      have := ih (fun z hz => h z (List.mem_cons_of_mem x hz)) hr
      simp [upsertOne, hx, this]

/-- C4 counterexample: upserting an event whose key already exists does
not overwrite the stored surprise: the incoming event's derived
surprise is one half, yet the stored row keeps its old surprise 7. -/
theorem upsert_surprise_c4_counterexample :
    conflictsWith sampleUpsertEvent sampleStoredRow = true ∧
    EconomicEvent.surprise sampleUpsertEvent = some (1 / 2) ∧
    ((upsertEvents [sampleUpsertEvent] [sampleStoredRow] 5).1.map
      (fun r => r.surprise)) = [some 7] ∧
    some (7 : ℚ) ≠ some (1 / 2 : ℚ) := by
  refine ⟨rfl, ?_, rfl, by norm_num⟩
  show calculate_surprise (some 300000) (some 200000) 1 = some (1 / 2)
  unfold calculate_surprise
  norm_num [abs_of_pos]

/-- C4 amended: upserting an event whose natural key conflicts with a
stored row (the first such row) overwrites its actual, forecast,
previous, impact, category, polarity and weight with the incoming
values and stamps the last-updated timestamp, creating no duplicate row
and reporting one affected row; the surprise column alone is left
unchanged (the upsert neither sets it on insert nor overwrites it on
conflict), as are the key columns. -/
theorem upsert_conflict_c4 (e : EconomicEvent) (now : Nat) (r : StoredEvent)
    (pre post : List StoredEvent)
    (hpre : ∀ x ∈ pre, conflictsWith e x = false)
    (hr : conflictsWith e r = true) :
    (upsertEvents [e] (pre ++ r :: post) now).1 =
      pre ++ applyUpdate e now r :: post ∧
    (upsertEvents [e] (pre ++ r :: post) now).1.length =
      (pre ++ r :: post).length ∧
    (upsertEvents [e] (pre ++ r :: post) now).2 = 1 ∧
    (applyUpdate e now r).actual = e.actual ∧
    (applyUpdate e now r).forecast = e.forecast ∧
    (applyUpdate e now r).previous = e.previous ∧
    (applyUpdate e now r).impact = e.impact ∧
    (applyUpdate e now r).event_type = e.event_type ∧
    (applyUpdate e now r).direction = e.direction ∧
    (applyUpdate e now r).weight = e.weight ∧
    (applyUpdate e now r).updated_at = some now ∧
    (applyUpdate e now r).surprise = r.surprise ∧
    (applyUpdate e now r).date = r.date ∧
    (applyUpdate e now r).time = r.time ∧
    (applyUpdate e now r).currency = r.currency ∧
    (applyUpdate e now r).event_name = r.event_name := by
  have h1 : (upsertEvents [e] (pre ++ r :: post) now).1 =
      upsertOne e now (pre ++ r :: post) := rfl
  have h2 := upsertOne_append e now r post pre hpre hr
  refine ⟨h1.trans h2, ?_, rfl, rfl, rfl, rfl, rfl, rfl, rfl, rfl, rfl, rfl,
    rfl, rfl, rfl, rfl⟩
  rw [h1, h2]
  simp

/-- C4 witness: the surprise-preservation clause of the amended theorem
at the concrete store and event of the counterexample. -/
theorem upsert_conflict_c4_witness :
    (applyUpdate sampleUpsertEvent 5 sampleStoredRow).surprise =
      sampleStoredRow.surprise :=
  (upsert_conflict_c4 sampleUpsertEvent 5 sampleStoredRow [] []
    (by intro x hx; simp at hx) rfl).2.2.2.2.2.2.2.2.2.2.2.1

/-- C6 counterexample: on the production backend's ORDER BY semantics
(ASC puts NULL last), a date holding a timed event and a NULL-time
event comes back with the timed event first; the result is not sorted
by the null-time-first order the claim states. -/
theorem getEvents_nullfirst_c6_counterexample :
    ((getEvents [allDayRow, timedRow] ⟨2026, 1, 15⟩ ⟨2026, 1, 15⟩ none none).map
      (fun r => r.time)) = [some 540, none] ∧
    ¬ List.Sorted spec_rowLe
        (getEvents [allDayRow, timedRow] ⟨2026, 1, 15⟩ ⟨2026, 1, 15⟩ none none) := by
  have he : getEvents [allDayRow, timedRow] ⟨2026, 1, 15⟩ ⟨2026, 1, 15⟩ none none =
      [timedRow, allDayRow] := rfl
  constructor
  · rw [he]; rfl
  · intro h
    rw [he, List.sorted_cons] at h
    have := h.1 allDayRow (by simp)
    rcases this with hlt | ⟨_, hp⟩
    · exact Date.lt_irrefl _ hlt
    · simp [specTimeKey, pairLe, timedRow, allDayRow] at hp

/-- C6 amended: every get_events result, for any range and filters, is
sorted by (date, time) ascending with a NULL time sorting last on its
date, PostgreSQL's default for ORDER BY ... ASC (the in-memory SQLite
used by the tests would sort NULL first instead, but the production
backend and the upsert dialect are PostgreSQL). -/
theorem getEvents_sorted_c6 :
    (∀ (store : List StoredEvent) (s e : Date) (cur : Option (List String))
        (imp : Option String),
      List.Sorted rowLe (getEvents store s e cur imp)) ∧
    (∀ a b : StoredEvent, a.date = b.date → a.time = none → rowLe a b →
      b.time = none) := by
  constructor
  · intro store s e cur imp
    unfold getEvents
    exact List.sorted_insertionSort rowLe _
  · intro a b hd ht h
    rcases h with h | ⟨_, hp⟩
    · exact absurd (hd ▸ h) (Date.lt_irrefl _)
    · rw [ht] at hp
      cases hb : b.time with
      | none => rfl
      | some x => rw [hb] at hp; simp [timeKey, pairLe] at hp

/-- C6 witness: the null-last clause of the amended theorem applied to
a concrete pair of rows. -/
theorem getEvents_sorted_c6_witness :
    allDayRow.time = none :=
  getEvents_sorted_c6.2 allDayRow allDayRow rfl rfl (by right; exact ⟨rfl, by decide⟩)

/-- With skip-existing, the month pass fetches exactly the days of the
month that have no events in the initial store. -/
theorem scrapeAndStoreMonth_fetched (y m : Nat)
    (scraper : Date → Except Unit (List EconomicEvent)) (now : Nat)
    (store₀ : List StoredEvent) :
    (scrapeAndStoreMonth y m true scraper now store₀).fetched =
      (monthDates y m).filter
        (fun d => !(store₀.any (fun r => decide (r.date = d)))) := by
  unfold scrapeAndStoreMonth
  rw [scrapeStoreDays_fetched]
  apply List.filter_congr
  intro d hd
  by_cases hmem : d ∈ (getEvents store₀ ⟨y, m, 1⟩ ⟨y, m, daysInMonth y m⟩
      none none).map (fun r => r.date)
  · have hex := (mem_monthView_dates hd).mp hmem
    have hany : store₀.any (fun r => decide (r.date = d)) = true := by
      rw [List.any_eq_true]
      obtain ⟨r, hr, he⟩ := hex
      exact ⟨r, hr, by simpa using he⟩
    show decide (d ∉ (getEvents store₀ ⟨y, m, 1⟩ ⟨y, m, daysInMonth y m⟩
      none none).map (fun r => r.date)) = _
    simp [hmem, hany]
  · have hany : store₀.any (fun r => decide (r.date = d)) = false := by
      rw [← Bool.not_eq_true, List.any_eq_true]
      rintro ⟨r, hr, he⟩
      exact hmem ((mem_monthView_dates hd).mpr ⟨r, hr, by simpa using he⟩)
    show decide (d ∉ (getEvents store₀ ⟨y, m, 1⟩ ⟨y, m, daysInMonth y m⟩
      none none).map (fun r => r.date)) = _
    simp [hmem, hany]

/-- C1: when every day fetch succeeds, a non-force fetch_month does not
abort, the day fetches it triggers are exactly the days of the month
with no events in the store followed by exactly the dates of the
needs-refresh query (evaluated on the store after the first pass), and
the returned view is the stored month filtered by the requested
currencies and minimum impact. -/
theorem fetch_month_policy_c1 (y m : Nat) (cur : Option (List String))
    (imp : Option String) (store₀ : List StoredEvent)
    (scraper : Date → Except Unit (List EconomicEvent)) (today : Date) (now : Nat)
    (hok : ∀ d, (scraper d).isOk = true) :
    (fetch_month y m cur imp false store₀ scraper today now).aborted = false ∧
    (fetch_month y m cur imp false store₀ scraper today now).fetched =
      ((monthDates y m).filter
          (fun d => !(store₀.any (fun r => decide (r.date = d))))) ++
        getEventsNeedingUpdate (scrapeAndStoreMonth y m true scraper now store₀).store
          ⟨y, m, 1⟩ ⟨y, m, daysInMonth y m⟩ today ∧
    (fetch_month y m cur imp false store₀ scraper today now).events =
      some ((getEvents (fetch_month y m cur imp false store₀ scraper today now).store
        ⟨y, m, 1⟩ ⟨y, m, daysInMonth y m⟩ cur imp).map toPydantic) := by
  obtain ⟨hab, hfetch⟩ := scrapeAndStoreDates_ok scraper now
    (getEventsNeedingUpdate (scrapeAndStoreMonth y m true scraper now store₀).store
      ⟨y, m, 1⟩ ⟨y, m, daysInMonth y m⟩ today)
    ((scrapeAndStoreMonth y m true scraper now store₀).store)
    (fun d _ => hok d)
  have hmain : fetch_month y m cur imp false store₀ scraper today now =
      ⟨some ((getEvents
          (scrapeAndStoreDates scraper now
            (getEventsNeedingUpdate
              (scrapeAndStoreMonth y m true scraper now store₀).store
              ⟨y, m, 1⟩ ⟨y, m, daysInMonth y m⟩ today)
            (scrapeAndStoreMonth y m true scraper now store₀).store).store
          ⟨y, m, 1⟩ ⟨y, m, daysInMonth y m⟩ cur imp).map toPydantic),
        (scrapeAndStoreDates scraper now
          (getEventsNeedingUpdate
            (scrapeAndStoreMonth y m true scraper now store₀).store
            ⟨y, m, 1⟩ ⟨y, m, daysInMonth y m⟩ today)
          (scrapeAndStoreMonth y m true scraper now store₀).store).store,
        (scrapeAndStoreMonth y m true scraper now store₀).fetched ++
          (scrapeAndStoreDates scraper now
            (getEventsNeedingUpdate
              (scrapeAndStoreMonth y m true scraper now store₀).store
              ⟨y, m, 1⟩ ⟨y, m, daysInMonth y m⟩ today)
            (scrapeAndStoreMonth y m true scraper now store₀).store).fetched,
        false⟩ := by
    unfold fetch_month
    split
    · rename_i h
      exact absurd h (by simp)
    · simp only [hab]
      rfl
  refine ⟨by rw [hmain], ?_, by rw [hmain]⟩
  rw [hmain]
  show (scrapeAndStoreMonth y m true scraper now store₀).fetched ++ _ = _
  rw [scrapeAndStoreMonth_fetched, hfetch]

/-- C1 witness: with days 1 to 28 of January 2026 cached with published
actuals and a scraper that always succeeds, the non-force fetch
triggers exactly the three day fetches 29, 30 and 31 (the refresh list
being empty). -/
theorem fetch_month_policy_c1_witness :
    (∀ d, (okEmptyScraper d).isOk = true) ∧
    (fetch_month 2026 1 none none false cachedJanStore okEmptyScraper
        ⟨2026, 2, 1⟩ 0).fetched =
      [⟨2026, 1, 29⟩, ⟨2026, 1, 30⟩, ⟨2026, 1, 31⟩] := by
  refine ⟨fun d => rfl, ?_⟩
  rw [(fetch_month_policy_c1 2026 1 none none cachedJanStore okEmptyScraper
    ⟨2026, 2, 1⟩ 0 (fun d => rfl)).2.1]
  decide

/-- C5 counterexample: January 12 of 2026 needs a refresh, yet when the
re-scrape of January 10 (also needing refresh) fails, the fetch_month
request aborts and January 12 is never fetched — a failing day in the
needs-refresh pass is not skipped. -/
theorem refresh_failure_c5_counterexample :
    (failJan10Scraper ⟨2026, 1, 10⟩).isOk = false ∧
    ((⟨2026, 1, 12⟩ : Date) ∈ getEventsNeedingUpdate
        (scrapeAndStoreMonth 2026 1 true failJan10Scraper 0 pendingJanStore).store
        ⟨2026, 1, 1⟩ ⟨2026, 1, daysInMonth 2026 1⟩ ⟨2026, 1, 1⟩) ∧
    (fetch_month 2026 1 none none false pendingJanStore failJan10Scraper
        ⟨2026, 1, 1⟩ 0).aborted = true ∧
    ((⟨2026, 1, 12⟩ : Date) ∉ (fetch_month 2026 1 none none false pendingJanStore
        failJan10Scraper ⟨2026, 1, 1⟩ 0).fetched) := by
  refine ⟨rfl, by decide, by decide, by decide⟩

/-- C5 amended: in the month pass every day outside the skip set is
processed whether or not its fetch fails (failing days are caught and
skipped, the pass never aborts); in the needs-refresh pass a fetch
failure is not caught: the dates up to and including the failing one
are fetched, the remaining refresh dates are dropped and the pass
aborts the request, while all-successful refresh passes fetch every
requested date. -/
theorem month_skip_refresh_abort_c5 :
    (∀ (scraper : Date → Except Unit (List EconomicEvent)) (now : Nat)
        (skips days : List Date) (store : List StoredEvent),
      (scrapeStoreDays scraper now skips days store).fetched =
        days.filter (fun d => decide (d ∉ skips))) ∧
    (∀ (scraper : Date → Except Unit (List EconomicEvent)) (now : Nat)
        (dates : List Date) (store : List StoredEvent),
      (∀ d ∈ dates, (scraper d).isOk = true) →
      (scrapeAndStoreDates scraper now dates store).aborted = false ∧
      (scrapeAndStoreDates scraper now dates store).fetched = dates) ∧
    (∀ (scraper : Date → Except Unit (List EconomicEvent)) (now : Nat)
        (l₁ : List Date) (d : Date) (l₂ : List Date) (store : List StoredEvent),
      (∀ x ∈ l₁, (scraper x).isOk = true) →
      (scraper d).isOk = false →
      (scrapeAndStoreDates scraper now (l₁ ++ d :: l₂) store).aborted = true ∧
      (scrapeAndStoreDates scraper now (l₁ ++ d :: l₂) store).fetched = l₁ ++ [d]) :=
  ⟨fun scraper now skips days store =>
      scrapeStoreDays_fetched scraper now skips days store,
   fun scraper now dates store h =>
      scrapeAndStoreDates_ok scraper now dates store h,
   fun scraper now l₁ d l₂ store h hd =>
      scrapeAndStoreDates_aborts scraper now d l₂ l₁ store h hd⟩

/-- C5 witness: the abort clause of the amended theorem applied to the
concrete failing scraper, with one successful date before the failure
and one date after it that is dropped. -/
theorem month_skip_refresh_abort_c5_witness :
    (scrapeAndStoreDates failJan10Scraper 0
        ([⟨2026, 1, 9⟩] ++ ⟨2026, 1, 10⟩ :: [⟨2026, 1, 12⟩]) []).aborted = true ∧
    (scrapeAndStoreDates failJan10Scraper 0
        ([⟨2026, 1, 9⟩] ++ ⟨2026, 1, 10⟩ :: [⟨2026, 1, 12⟩]) []).fetched =
      [⟨2026, 1, 9⟩] ++ [⟨2026, 1, 10⟩] :=
  month_skip_refresh_abort_c5.2.2 failJan10Scraper 0 [⟨2026, 1, 9⟩]
    ⟨2026, 1, 10⟩ [⟨2026, 1, 12⟩] []
    (by intro x hx; simp at hx; subst hx; rfl) rfl

end Blackbox
